import Mathlib

/-!
Shallow embedding of `nba_clusters.py`.

The script fetches NBA roster and per-player career statistics, joins them,
runs a KMeans scan over candidate cluster counts 2..8 keeping the candidate
with the strictly largest silhouette score, and reports cluster membership.

Network, pandas and sklearn effects are embedded as follows:
* a JSON scalar value is `JVal`; a result set is `ResultSet` (headers plus
  row-major `rowSet`); a pandas DataFrame is `DataFrame` (column names plus
  row-major rows);
* fallible pandas operations (column coercion via `astype(int)`, dictionary
  key lookup, list indexing) return `Option`, `none` standing for the raised
  Python exception that aborts the run;
* the KMeans fit and the silhouette scoring are nondeterministic library
  calls; they enter the model as oracle parameters `labels : Nat → List Nat`
  and `score : Nat → ℚ` giving, for each candidate count `n`, the fitted
  label vector and its silhouette score;
* the per-player HTTP fetch of `get_player_stats` is an oracle
  `fetch : Int → Option (List StatRow)`, `none` standing for a raised
  request, JSON or schema error.
-/

/-- A JSON scalar value as it appears in a `rowSet` cell. -/
inductive JVal where
  | null : JVal
  | int : Int → JVal
  | str : String → JVal
deriving DecidableEq

/-- One result set of the NBA stats API: `headers` and row-major `rowSet`. -/
structure ResultSet where
  headers : List String
  rowSet : List (List JVal)
deriving DecidableEq

/-- A pandas DataFrame: column names and row-major rows. -/
structure DataFrame where
  columns : List String
  rows : List (List JVal)
deriving DecidableEq

/-- Pandas `pd.DataFrame.from_records(rowSet, columns=headers)`. -/
def from_records (rowSet : List (List JVal)) (headers : List String) : DataFrame :=
  ⟨headers, rowSet⟩

/-- Digit-string to number: `none` unless the list is a nonempty run of
decimal digits, otherwise the base-10 value. -/
def digitsToNat (cs : List Char) : Option Nat :=
  if cs ≠ [] ∧ cs.all Char.isDigit then
    some (cs.foldl (fun a c => 10 * a + (c.toNat - 48)) 0)
  else none

/-- Python `int(s)` on a string: optional sign followed by a nonempty run
of decimal digits; anything else raises (returns `none`). -/
def strToInt (s : String) : Option Int :=
  match s.data with
  | [] => none
  | c :: rest =>
    if c = '-' then (digitsToNat rest).map (fun n : Nat => -(n : Int))
    else if c = '+' then (digitsToNat rest).map (fun n : Nat => (n : Int))
    else (digitsToNat (c :: rest)).map (fun n : Nat => (n : Int))

/-- The elementwise coercion performed by `.astype(int)` on a column cell:
integers pass through, numeric strings parse, everything else raises. -/
def pyInt : JVal → Option Int
  | .int n => some n
  | .str s => strToInt s
  | .null => none

/-- A string is numeric when it is an optional sign followed by a nonempty
run of decimal digits. -/
def NumericStr (s : String) : Prop :=
  match s.data with
  | [] => False
  | c :: rest =>
    if c = '-' ∨ c = '+' then rest ≠ [] ∧ rest.all Char.isDigit = true
    else (c :: rest).all Char.isDigit = true

instance (s : String) : Decidable (NumericStr s) := by
  unfold NumericStr
  match s.data with
  | [] => exact inferInstanceAs (Decidable False)
  | c :: rest => exact inferInstanceAs (Decidable (ite _ _ _))

/-- Coerce column cell `j` of one row to an integer; `none` if the row has
no cell `j` or the cell is not numeric. -/
def coerceRow (j : Nat) (r : List JVal) : Option (List JVal) := do
  let v ← r.get? j
  let n ← pyInt v
  pure (r.set j (JVal.int n))

/-- Coerce column cell `j` of every row; the first failure aborts. -/
def coerceRows (j : Nat) : List (List JVal) → Option (List (List JVal))
  | [] => some []
  | r :: rest => do
    let r1 ← coerceRow j r
    let rest1 ← coerceRows j rest
    pure (r1 :: rest1)

/-- The assignment `df.col = df.col.astype(int)`: find the column by name and coerce every
cell in it to an integer; a missing column or a non-numeric cell raises. -/
def astype_int (df : DataFrame) (col : String) : Option DataFrame := do
  let j ← List.findIdx? (fun c => c = col) df.columns
  let rows1 ← coerceRows j df.rows
  pure ⟨df.columns, rows1⟩

/-- The function `get_players_df`, from the point where the JSON body is available: take
`resultSets[0]`, build the DataFrame from its `rowSet` with its `headers`
as columns, and coerce the `TO_YEAR` column to integer. -/
def get_players_df (resultSets : List ResultSet) : Option DataFrame := do
  let rs ← resultSets.head?
  astype_int (from_records rs.rowSet rs.headers) "TO_YEAR"

/-- The function `get_player_career_reg_season_stats`, from the point where the JSON
body is available: take `resultSets[1]`, build the DataFrame from its
`rowSet` with its `headers` as columns, and coerce `PLAYER_ID`. -/
def get_player_career_reg_season_stats (resultSets : List ResultSet) : Option DataFrame := do
  let rs ← resultSets.get? 1
  astype_int (from_records rs.rowSet rs.headers) "PLAYER_ID"

/-- A roster row, restricted to the two fields the script reads from it:
`PERSON_ID` and `DISPLAY_LAST_COMMA_FIRST`. -/
structure Player where
  person_id : Int
  display_last_comma_first : String
deriving DecidableEq

/-- A career-stats row, restricted to the join key `PLAYER_ID`; the numeric
stat cells ride along uninterpreted. -/
structure StatRow where
  player_id : Int
  stats : List JVal
deriving DecidableEq

/-- The running state of the silhouette scan in `cluster`: the variables
`optimal_n`, `optimal_clusters` and `optimal_silhouette` (which starts at
`-99`, below every possible silhouette value). -/
structure ScanState where
  optimal_n : Option Nat
  optimal_clusters : Option (List Nat)
  optimal_silhouette : ℚ
deriving DecidableEq

/-- One iteration of the scan loop body for candidate count `n`: replace
the running best exactly when the new score strictly exceeds it. -/
def scanStep (score : Nat → ℚ) (labels : Nat → List Nat) (s : ScanState) (n : Nat) : ScanState :=
  if s.optimal_silhouette < score n then
    ⟨some n, some (labels n), score n⟩
  else s

/-- The loop `for n in range(2, 9)` of `cluster`, with the library fit and
scoring supplied as oracles. -/
def cluster_scan (score : Nat → ℚ) (labels : Nat → List Nat) : ScanState :=
  (List.range' 2 7).foldl (scanStep score labels) ⟨none, none, -99⟩

/-- Worker for `pySplit`: walk the characters, accumulating the current
token in reverse; whitespace closes the token, if any. -/
def pySplitGo : List Char → List Char → List String
  | [], cur => if cur = [] then [] else [String.mk cur.reverse]
  | c :: rest, cur =>
    if c.isWhitespace then
      if cur = [] then pySplitGo rest []
      else String.mk cur.reverse :: pySplitGo rest []
    else pySplitGo rest (c :: cur)

/-- Python `s.split()`: split on whitespace runs, dropping empty pieces. -/
def pySplit (s : String) : List String :=
  pySplitGo s.data []

/-- A member record of the final report: the dict built in `cluster` with
keys `player_id`, `first_name`, `last_name`. -/
structure PlayerIdentity where
  player_id : Int
  first_name : String
  last_name : String
deriving DecidableEq

/-- Build one member record from a roster row: first name is the last
whitespace token of the display name, last name the first token; an empty
token list raises an IndexError (`none`). -/
def mkIdentity (p : Player) : Option PlayerIdentity := do
  let fn ← (pySplit p.display_last_comma_first).getLast?
  let ln ← (pySplit p.display_last_comma_first).head?
  pure ⟨p.person_id, fn, ln⟩

/-- The update `clusters[label].append(v)` on the report dict: a missing key raises a
KeyError (`none`), otherwise the list under `key` grows by `v`. -/
def dictAppend (d : List (Nat × List PlayerIdentity)) (key : Nat) (v : PlayerIdentity) :
    Option (List (Nat × List PlayerIdentity)) :=
  if key ∈ d.map Prod.fst then
    some (d.map fun e => if e.1 = key then (e.1, e.2 ++ [v]) else e)
  else none

/-- One iteration of the report loop: build the member record for the row
and append it to the list under its label. -/
def reportStep (d : List (Nat × List PlayerIdentity)) (e : Nat × Player) :
    Option (List (Nat × List PlayerIdentity)) := do
  let idrec ← mkIdentity e.2
  dictAppend d e.1 idrec

/-- The report construction of `cluster`: start from
`{n: [] for n in range(optimal_n)}` and append, for each row in order, its
member record to the list under its cluster label. -/
def buildReport (optimal_n : Nat) (players_df : List Player) (optimal_clusters : List Nat) :
    Option (List (Nat × List PlayerIdentity)) :=
  (optimal_clusters.zip players_df).foldlM reportStep
    ((List.range optimal_n).map fun n => (n, []))

/-- The whole `cluster` function: run the scan, then build the report for
the winning candidate; a scan that never selected raises (`none`). -/
def cluster (score : Nat → ℚ) (labels : Nat → List Nat) (players_df : List Player) :
    Option (List (Nat × List PlayerIdentity)) := do
  let st := cluster_scan score labels
  let n ← st.optimal_n
  let cls ← st.optimal_clusters
  buildReport n players_df cls

/-- Pandas `df_players.merge(df_stats, left_on="PERSON_ID",
right_on="PLAYER_ID", how="left")`: every roster row paired with each
matching stat row in order; a roster row without a match is kept once,
its stat side `none` (all stat fields null). -/
def leftMerge (players : List Player) (stats : List StatRow) :
    List (Player × Option StatRow) :=
  (players.map fun p =>
    match stats.filter (fun srow => srow.player_id = p.person_id) with
    | [] => [(p, none)]
    | ms => ms.map fun srow => (p, some srow)).flatten

/-- The fetch loop of `get_player_stats`: walk the `PERSON_ID` column in
row order, appending each fetched stat table to the accumulator and the
identifier to the call log; a failed fetch aborts the loop at once. -/
def statLoopAux (fetch : Int → Option (List StatRow)) :
    List Int → List StatRow → List Int → Option (List StatRow) × List Int
  | [], acc, log => (some acc, log)
  | pid :: rest, acc, log =>
    match fetch pid with
    | none => (none, log ++ [pid])
    | some rows => statLoopAux fetch rest (acc ++ rows) (log ++ [pid])

/-- The collector `get_player_stats`: run the fetch loop over the roster and left-join
the roster to the accumulated stats. On an empty roster the loop body
never runs, so the merge reads the unbound `df_stats` and raises a
NameError (`none`); a fetch failure propagates. The second component is
the log of fetch calls actually issued, in order. -/
def get_player_stats (fetch : Int → Option (List StatRow)) (df_players : List Player) :
    Option (List (Player × Option StatRow)) × List Int :=
  match df_players with
  | [] => (none, [])
  | _ :: _ =>
    match statLoopAux fetch (df_players.map Player.person_id) [] [] with
    | (none, log) => (none, log)
    | (some stats, log) => (some (leftMerge df_players stats), log)

/-! ## The silhouette scan -/

/-- Invariant of the scan loop over any strictly increasing candidate
list: if no candidate beats the running score the state is unchanged, and
if some candidate does, the final state holds the first candidate of
maximal score among those beating the running score. -/
lemma scan_foldl_spec (score : Nat → ℚ) (labels : Nat → List Nat) :
    ∀ l : List Nat, l.Pairwise (· < ·) → ∀ s : ScanState,
      ((∀ n ∈ l, score n ≤ s.optimal_silhouette) →
        l.foldl (scanStep score labels) s = s) ∧
      ((∃ n ∈ l, s.optimal_silhouette < score n) →
        ∃ m ∈ l,
          l.foldl (scanStep score labels) s = ⟨some m, some (labels m), score m⟩ ∧
          s.optimal_silhouette < score m ∧
          (∀ k ∈ l, score k ≤ score m) ∧
          (∀ k ∈ l, k < m → score k < score m)) := by
  intro l
  induction l with
  | nil =>
    intro _ s
    refine ⟨fun _ => rfl, ?_⟩
    rintro ⟨n, hn, -⟩
    exact absurd hn (List.not_mem_nil n)
  | cons a t ih =>
    intro hp s
    have hpa : ∀ k ∈ t, a < k := (List.pairwise_cons.mp hp).1
    have hpt : t.Pairwise (· < ·) := (List.pairwise_cons.mp hp).2
    constructor
    · intro hall
      have ha : score a ≤ s.optimal_silhouette := hall a (List.mem_cons_self a t)
      have hstep : scanStep score labels s a = s := by
        unfold scanStep
        rw [if_neg (not_lt.mpr ha)]
      rw [List.foldl_cons, hstep]
      exact (ih hpt s).1 (fun n hn => hall n (List.mem_cons_of_mem a hn))
    · rintro ⟨n, hn, hlt⟩
      by_cases hlta : s.optimal_silhouette < score a
      · have hstep : scanStep score labels s a = ⟨some a, some (labels a), score a⟩ := by
          unfold scanStep
          rw [if_pos hlta]
        rw [List.foldl_cons, hstep]
        by_cases hrest : ∃ k ∈ t, score a < score k
        · obtain ⟨m, hmt, heq, hgt, hle, hfirst⟩ :=
            (ih hpt ⟨some a, some (labels a), score a⟩).2 hrest
          refine ⟨m, List.mem_cons_of_mem a hmt, heq, lt_trans hlta hgt, ?_, ?_⟩
          · intro k hk
            rcases List.mem_cons.mp hk with hk | hk
            · subst hk; exact le_of_lt hgt
            · exact hle k hk
          · intro k hk hkm
            rcases List.mem_cons.mp hk with hk | hk
            · subst hk; exact hgt
            · exact hfirst k hk hkm
        · push_neg at hrest
          have hid := (ih hpt ⟨some a, some (labels a), score a⟩).1 hrest
          refine ⟨a, List.mem_cons_self a t, hid, hlta, ?_, ?_⟩
          · intro k hk
            rcases List.mem_cons.mp hk with hk | hk
            · subst hk; exact le_refl _
            · exact hrest k hk
          · intro k hk hka
            rcases List.mem_cons.mp hk with hk | hk
            · rw [hk] at hka; exact absurd hka (lt_irrefl a)
            · exact absurd hka (not_lt.mpr (le_of_lt (hpa k hk)))
      · have hstep : scanStep score labels s a = s := by
          unfold scanStep
          rw [if_neg hlta]
        rw [List.foldl_cons, hstep]
        have hna : n ∈ t := by
          rcases List.mem_cons.mp hn with hn | hn
          · subst hn; exact absurd hlt hlta
          · exact hn
        obtain ⟨m, hmt, heq, hgt, hle, hfirst⟩ := (ih hpt s).2 ⟨n, hna, hlt⟩
        refine ⟨m, List.mem_cons_of_mem a hmt, heq, hgt, ?_, ?_⟩
        · intro k hk
          rcases List.mem_cons.mp hk with hk | hk
          · subst hk; exact le_of_lt ((not_lt.mp hlta).trans_lt hgt)
          · exact hle k hk
        · intro k hk hkm
          rcases List.mem_cons.mp hk with hk | hk
          · subst hk; exact lt_of_le_of_lt (not_lt.mp hlta) hgt
          · exact hfirst k hk hkm

/-- The candidate list of the scan, `range(2, 9)`, as a literal. -/
lemma range_2_9 : List.range' 2 7 = [2, 3, 4, 5, 6, 7, 8] := rfl

/-- Membership in the candidate list is the inclusive interval [2, 8]. -/
lemma mem_range_2_9 (k : Nat) : k ∈ List.range' 2 7 ↔ 2 ≤ k ∧ k ≤ 8 := by
  rw [range_2_9]
  simp only [List.mem_cons, List.mem_singleton, List.not_mem_nil, or_false]
  omega


/-! ## Claim theorems -/

/-- C1: whenever every candidate fit and score succeeds (a silhouette
value always lies in [-1, 1], in particular at or above -1), the scan over
n in [2, 8] returns the labels of the candidate with maximal score, and a
later candidate replaces the running best only on a strictly larger
score, so ties keep the lowest such n. -/
theorem cluster_scan_picks_first_strict_max (score : Nat → ℚ) (labels : Nat → List Nat)
    (hs : ∀ k, 2 ≤ k → k ≤ 8 → -1 ≤ score k) :
    ∃ m, 2 ≤ m ∧ m ≤ 8 ∧
      (cluster_scan score labels).optimal_n = some m ∧
      (cluster_scan score labels).optimal_clusters = some (labels m) ∧
      (∀ k, 2 ≤ k → k ≤ 8 → score k ≤ score m) ∧
      (∀ k, 2 ≤ k → k ≤ 8 → k < m → score k < score m) := by
  have hpw : (List.range' 2 7).Pairwise (fun a b => a < b) := by
    rw [range_2_9]; decide
  have h2 : (2 : Nat) ∈ List.range' 2 7 := by rw [range_2_9]; decide
  have hbeat : (-99 : ℚ) < score 2 := by
    have := hs 2 (by norm_num) (by norm_num)
    linarith
  obtain ⟨m, hm, heq, -, hle, hfirst⟩ :=
    (scan_foldl_spec score labels (List.range' 2 7) hpw ⟨none, none, -99⟩).2 ⟨2, h2, hbeat⟩
  obtain ⟨hm2, hm8⟩ := (mem_range_2_9 m).mp hm
  refine ⟨m, hm2, hm8, ?_, ?_, ?_, ?_⟩
  · unfold cluster_scan; rw [heq]
  · unfold cluster_scan; rw [heq]
  · intro k hk2 hk8
    exact hle k ((mem_range_2_9 k).mpr ⟨hk2, hk8⟩)
  · intro k hk2 hk8 hkm
    exact hfirst k ((mem_range_2_9 k).mpr ⟨hk2, hk8⟩) hkm

/-- Witness for C1 at the concrete score function n ↦ n and labels
n ↦ n zeros. -/
theorem cluster_scan_picks_first_strict_max_witness :
    ∃ m, 2 ≤ m ∧ m ≤ 8 ∧
      (cluster_scan (fun n => (n : ℚ)) (fun n => List.replicate n 0)).optimal_n = some m ∧
      (cluster_scan (fun n => (n : ℚ)) (fun n => List.replicate n 0)).optimal_clusters =
        some (List.replicate m 0) ∧
      (∀ k : Nat, 2 ≤ k → k ≤ 8 → ((k : ℚ)) ≤ ((m : ℚ))) ∧
      (∀ k : Nat, 2 ≤ k → k ≤ 8 → k < m → ((k : ℚ)) < ((m : ℚ))) :=
  cluster_scan_picks_first_strict_max (fun n => (n : ℚ)) (fun n => List.replicate n 0)
    (by
      intro k h2 h8
      have hk : (0 : ℚ) ≤ (k : ℚ) := Nat.cast_nonneg k
      linarith)

/-- C3: whenever the scan completes with every fit and score succeeding,
some candidate count is selected, and it lies in the inclusive range
[2, 8]. -/
theorem cluster_scan_selects_in_range (score : Nat → ℚ) (labels : Nat → List Nat)
    (hs : ∀ k, 2 ≤ k → k ≤ 8 → -1 ≤ score k) :
    ∃ m, (cluster_scan score labels).optimal_n = some m ∧ 2 ≤ m ∧ m ≤ 8 := by
  have hpw : (List.range' 2 7).Pairwise (fun a b => a < b) := by
    rw [range_2_9]; decide
  have h2 : (2 : Nat) ∈ List.range' 2 7 := by rw [range_2_9]; decide
  have hbeat : (-99 : ℚ) < score 2 := by
    have := hs 2 (by norm_num) (by norm_num)
    linarith
  obtain ⟨m, hm, heq, -, -, -⟩ :=
    (scan_foldl_spec score labels (List.range' 2 7) hpw ⟨none, none, -99⟩).2 ⟨2, h2, hbeat⟩
  obtain ⟨hm2, hm8⟩ := (mem_range_2_9 m).mp hm
  refine ⟨m, ?_, hm2, hm8⟩
  unfold cluster_scan; rw [heq]

/-- Witness for C3 at the constant zero score function. -/
theorem cluster_scan_selects_in_range_witness :
    ∃ m, (cluster_scan (fun _ => (0 : ℚ)) (fun _ => [])).optimal_n = some m ∧
      2 ≤ m ∧ m ≤ 8 :=
  cluster_scan_selects_in_range (fun _ => (0 : ℚ)) (fun _ => [])
    (by intro k h2 h8; norm_num)

/-- C2 counterexample: on the display name "Smith, John" the identity
record is not (player 7, first "John", last "Smith"): the first
whitespace token, which becomes the last name, is "Smith," with the
trailing comma, because the split is on whitespace only. -/
theorem mkIdentity_smith_john_not_claimed :
    mkIdentity ⟨7, "Smith, John"⟩ ≠ some ⟨7, "John", "Smith"⟩ := by decide

/-- C2 amended: on the two-token display name "Smith, John" the identity
record has first_name "John" (the last whitespace token) and last_name
"Smith," (the first whitespace token, trailing comma included). -/
theorem mkIdentity_smith_john (pid : Int) :
    mkIdentity ⟨pid, "Smith, John"⟩ = some ⟨pid, "John", "Smith,"⟩ := rfl

/-- C9: on a display name that is a single whitespace token the split does
not fail: first_name and last_name both equal that token. -/
theorem mkIdentity_single_token (pid : Int) (s t : String)
    (h : pySplit s = [t]) :
    mkIdentity ⟨pid, s⟩ = some ⟨pid, t, t⟩ := by
  simp [mkIdentity, h]

/-- Witness for C9 at the single-token display name "Smith". -/
theorem mkIdentity_single_token_witness :
    pySplit "Smith" = ["Smith"] ∧
      mkIdentity ⟨7, "Smith"⟩ = some ⟨7, "Smith", "Smith"⟩ :=
  ⟨by decide, mkIdentity_single_token 7 "Smith" "Smith" (by decide)⟩

/-! ## The report dictionary -/

/-- An append update leaves the key list of the report dict unchanged. -/
lemma dictUpdate_keys (d : List (Nat × List PlayerIdentity)) (key : Nat) (v : PlayerIdentity) :
    (d.map fun e => if e.1 = key then (e.1, e.2 ++ [v]) else e).map Prod.fst =
      d.map Prod.fst := by
  induction d with
  | nil => rfl
  | cons e rest ih =>
    simp only [List.map_cons, ih, List.cons.injEq, and_true]
    split <;> rfl

/-- An append update under an absent key changes nothing. -/
lemma dictUpdate_not_mem (d : List (Nat × List PlayerIdentity)) (key : Nat)
    (v : PlayerIdentity) (h : key ∉ d.map Prod.fst) :
    (d.map fun e => if e.1 = key then (e.1, e.2 ++ [v]) else e) = d := by
  induction d with
  | nil => rfl
  | cons e rest ih =>
    simp only [List.map_cons, List.mem_cons, not_or] at h
    simp only [List.map_cons, ih h.2, List.cons.injEq, and_true]
    rw [if_neg (fun he => h.1 he.symm)]

/-- With distinct keys, an append update under a present key grows the
total member count by exactly one. -/
lemma dictUpdate_sizes (d : List (Nat × List PlayerIdentity)) (key : Nat)
    (v : PlayerIdentity) (hmem : key ∈ d.map Prod.fst)
    (hnd : (d.map Prod.fst).Nodup) :
    ((d.map fun e => if e.1 = key then (e.1, e.2 ++ [v]) else e).map
        fun e => e.2.length).sum =
      ((d.map fun e => e.2.length).sum) + 1 := by
  induction d with
  | nil => simp at hmem
  | cons e rest ih =>
    simp only [List.map_cons, List.nodup_cons] at hnd
    by_cases h : e.1 = key
    · have hrest : key ∉ rest.map Prod.fst := h ▸ hnd.1
      simp only [List.map_cons, if_pos h, dictUpdate_not_mem rest key v hrest,
        List.sum_cons, List.length_append, List.length_singleton]
      omega
    · have hrest : key ∈ rest.map Prod.fst := by
        rcases List.mem_cons.mp hmem with hmem | hmem
        · exact absurd hmem.symm h
        · exact hmem
      simp only [List.map_cons, if_neg h, List.sum_cons, ih hrest hnd.2]
      omega

/-- Applying `dictAppend` under a present, unique key succeeds, keeps the key list
and grows the total member count by one. -/
lemma dictAppend_spec (d : List (Nat × List PlayerIdentity)) (key : Nat)
    (v : PlayerIdentity) (hmem : key ∈ d.map Prod.fst)
    (hnd : (d.map Prod.fst).Nodup) :
    ∃ d1, dictAppend d key v = some d1 ∧
      d1.map Prod.fst = d.map Prod.fst ∧
      (d1.map fun e => e.2.length).sum = (d.map fun e => e.2.length).sum + 1 := by
  refine ⟨_, ?_, dictUpdate_keys d key v, dictUpdate_sizes d key v hmem hnd⟩
  unfold dictAppend
  rw [if_pos hmem]

/-- A display name with at least one whitespace token yields a member
record. -/
lemma mkIdentity_isSome (p : Player) (h : pySplit p.display_last_comma_first ≠ []) :
    ∃ idrec, mkIdentity p = some idrec := by
  have hlast : (pySplit p.display_last_comma_first).getLast?.isSome :=
    List.getLast?_isSome.mpr h
  have hhead : (pySplit p.display_last_comma_first).head?.isSome :=
    List.head?_isSome.mpr h
  obtain ⟨fn, hfn⟩ := Option.isSome_iff_exists.mp hlast
  obtain ⟨ln, hln⟩ := Option.isSome_iff_exists.mp hhead
  exact ⟨⟨p.person_id, fn, ln⟩, by simp [mkIdentity, hfn, hln]⟩

/-- Invariant of the report loop: as long as every label is a key of the
running dict and the keys are distinct and every display name splits into
at least one token, the loop succeeds, keeps the key list, and grows the
total member count by the number of processed rows. -/
lemma reportFold_spec (entries : List (Nat × Player)) :
    ∀ d : List (Nat × List PlayerIdentity),
      (∀ e ∈ entries, e.1 ∈ d.map Prod.fst) →
      (d.map Prod.fst).Nodup →
      (∀ e ∈ entries, pySplit e.2.display_last_comma_first ≠ []) →
      ∃ d1, entries.foldlM reportStep d = some d1 ∧
        d1.map Prod.fst = d.map Prod.fst ∧
        (d1.map fun e => e.2.length).sum =
          (d.map fun e => e.2.length).sum + entries.length := by
  induction entries with
  | nil =>
    intro d _ _ _
    exact ⟨d, rfl, rfl, by simp⟩
  | cons e rest ih =>
    intro d hmem hnd hname
    obtain ⟨idrec, hid⟩ := mkIdentity_isSome e.2 (hname e (List.mem_cons_self e rest))
    obtain ⟨d1, hda, hkeys, hsum⟩ :=
      dictAppend_spec d e.1 idrec (hmem e (List.mem_cons_self e rest)) hnd
    have hstep : reportStep d e = some d1 := by
      simp [reportStep, hid, hda]
    obtain ⟨d2, hf, hk2, hs2⟩ :=
      ih d1
        (fun x hx => hkeys ▸ hmem x (List.mem_cons_of_mem e hx))
        (hkeys ▸ hnd)
        (fun x hx => hname x (List.mem_cons_of_mem e hx))
    refine ⟨d2, ?_, hk2.trans hkeys, ?_⟩
    · rw [List.foldlM_cons, hstep]
      simpa using hf
    · rw [hs2, hsum, List.length_cons]
      omega

/-- C4: for a winning count k and labels in 0..k-1 (one per row, every
display name nonblank), the report is built, its key list is exactly
0..k-1, and the member counts over all clusters sum to the number of
rows, each row contributing exactly one record. -/
theorem buildReport_partition (k : Nat) (players_df : List Player)
    (optimal_clusters : List Nat)
    (hlen : optimal_clusters.length = players_df.length)
    (hlab : ∀ l ∈ optimal_clusters, l < k)
    (hname : ∀ p ∈ players_df, pySplit p.display_last_comma_first ≠ []) :
    ∃ d, buildReport k players_df optimal_clusters = some d ∧
      d.map Prod.fst = List.range k ∧
      (d.map fun e => e.2.length).sum = players_df.length := by
  have hkeys0 :
      (((List.range k).map fun n => ((n, []) : Nat × List PlayerIdentity)).map Prod.fst) =
        List.range k := by
    simp [List.map_map, Function.comp_def]
  have hsum0 :
      ((((List.range k).map fun n => ((n, []) : Nat × List PlayerIdentity)).map
          fun e => e.2.length).sum) = 0 := by
    simp [List.map_map, Function.comp_def]
  obtain ⟨d, hfold, hkeys, hsum⟩ :=
    reportFold_spec (optimal_clusters.zip players_df)
      ((List.range k).map fun n => (n, []))
      (by
        intro e he
        rw [hkeys0, List.mem_range]
        exact hlab e.1 (List.of_mem_zip he).1)
      (by rw [hkeys0]; exact List.nodup_range k)
      (by
        intro e he
        exact hname e.2 (List.of_mem_zip he).2)
  refine ⟨d, hfold, hkeys.trans hkeys0, ?_⟩
  rw [hsum, hsum0, List.length_zip, hlen, Nat.min_self]
  omega

/-! ## The batch stat collector -/

/-- When every fetch in the remaining identifier list succeeds, the loop
returns the accumulated tables in row order and logs one call per
identifier, in order. -/
lemma statLoopAux_ok (fetch : Int → Option (List StatRow)) :
    ∀ (pids : List Int) (acc : List StatRow) (log : List Int),
      (∀ p ∈ pids, fetch p ≠ none) →
      statLoopAux fetch pids acc log =
        (some (acc ++ (pids.map fun p => (fetch p).getD []).flatten), log ++ pids) := by
  intro pids
  induction pids with
  | nil =>
    intro acc log _
    simp [statLoopAux]
  | cons p rest ih =>
    intro acc log hok
    obtain ⟨rows, hrows⟩ :=
      Option.ne_none_iff_exists'.mp (hok p (List.mem_cons_self p rest))
    have hred : statLoopAux fetch (p :: rest) acc log =
        statLoopAux fetch rest (acc ++ rows) (log ++ [p]) := by
      simp only [statLoopAux, hrows]
    rw [hred, ih (acc ++ rows) (log ++ [p])
      (fun q hq => hok q (List.mem_cons_of_mem p hq))]
    simp [hrows, List.append_assoc]

/-- A failing fetch stops the loop at once: the log ends at the failing
identifier and the result is the propagated error. -/
lemma statLoopAux_fail (fetch : Int → Option (List StatRow)) (p : Int) (l2 : List Int) :
    ∀ (l1 : List Int) (acc : List StatRow) (log : List Int),
      (∀ q ∈ l1, fetch q ≠ none) → fetch p = none →
      statLoopAux fetch (l1 ++ p :: l2) acc log = (none, log ++ l1 ++ [p]) := by
  intro l1
  induction l1 with
  | nil =>
    intro acc log _ hfail
    simp only [List.nil_append, statLoopAux, hfail, List.append_nil]
  | cons q rest ih =>
    intro acc log hok hfail
    obtain ⟨rows, hrows⟩ :=
      Option.ne_none_iff_exists'.mp (hok q (List.mem_cons_self q rest))
    have hred : statLoopAux fetch ((q :: rest) ++ p :: l2) acc log =
        statLoopAux fetch (rest ++ p :: l2) (acc ++ rows) (log ++ [q]) := by
      rw [List.cons_append]
      simp only [statLoopAux, hrows]
    rw [hred, ih (acc ++ rows) (log ++ [q])
      (fun x hx => hok x (List.mem_cons_of_mem q hx)) hfail]
    simp [List.append_assoc]

/-- A roster row with no matching stat row appears in the left join paired
with `none` (all stat fields null). -/
lemma leftMerge_unmatched (players : List Player) (stats : List StatRow)
    (p : Player) (hp : p ∈ players)
    (hnone : stats.filter (fun srow => srow.player_id = p.person_id) = []) :
    (p, none) ∈ leftMerge players stats := by
  unfold leftMerge
  rw [List.mem_flatten]
  refine ⟨[(p, none)], ?_, List.mem_singleton.mpr rfl⟩
  rw [List.mem_map]
  refine ⟨p, hp, ?_⟩
  simp only [hnone]

/-- C5: on a non-empty roster where every fetch succeeds, the collector
issues exactly one fetch per roster row, in row order (the call log is the
`PERSON_ID` column), accumulates the fetched tables in that order, and
returns the roster left-joined to the accumulated stats on
PERSON_ID = PLAYER_ID; roster rows without a match are paired with null
stat fields. -/
theorem get_player_stats_contract (fetch : Int → Option (List StatRow))
    (df_players : List Player)
    (hne : df_players ≠ [])
    (hok : ∀ pid ∈ df_players.map Player.person_id, fetch pid ≠ none) :
    get_player_stats fetch df_players =
      (some (leftMerge df_players
          ((df_players.map fun p => (fetch p.person_id).getD []).flatten)),
        df_players.map Player.person_id) ∧
      (∀ p ∈ df_players,
        ((df_players.map fun q => (fetch q.person_id).getD []).flatten).filter
            (fun srow => srow.player_id = p.person_id) = [] →
          (p, none) ∈ leftMerge df_players
            ((df_players.map fun q => (fetch q.person_id).getD []).flatten)) := by
  obtain ⟨q0, qs, hq⟩ := List.exists_cons_of_ne_nil hne
  constructor
  · subst hq
    unfold get_player_stats
    rw [statLoopAux_ok fetch ((q0 :: qs).map Player.person_id) [] [] hok]
    simp [List.map_map, Function.comp_def]
  · intro p hp hfilter
    exact leftMerge_unmatched df_players _ p hp hfilter

/-- Witness for C5 on a two-row roster with an always-succeeding fetch. -/
theorem get_player_stats_contract_witness :
    (get_player_stats (fun pid => some [⟨pid, []⟩]) [⟨1, "A B"⟩, ⟨2, "C D"⟩]).2 = [1, 2] := by
  have h :=
    (get_player_stats_contract (fun pid => some [⟨pid, []⟩]) [⟨1, "A B"⟩, ⟨2, "C D"⟩]
      (by decide) (by intro pid hpid; exact Option.some_ne_none _)).1
  rw [h]
  rfl

/-- C6: a single failing fetch aborts the whole batch: no partial result
is returned, the failing identifier is attempted exactly once (no retry),
and no later roster row is fetched. -/
theorem get_player_stats_abort (fetch : Int → Option (List StatRow))
    (df_players : List Player) (l1 : List Int) (p : Int) (l2 : List Int)
    (hsplit : df_players.map Player.person_id = l1 ++ p :: l2)
    (hok : ∀ q ∈ l1, fetch q ≠ none)
    (hfail : fetch p = none) :
    get_player_stats fetch df_players = (none, l1 ++ [p]) := by
  have hne : df_players ≠ [] := by
    intro h
    rw [h] at hsplit
    exact absurd hsplit.symm (List.append_ne_nil_of_right_ne_nil l1 (List.cons_ne_nil p l2))
  obtain ⟨q0, qs, hq⟩ := List.exists_cons_of_ne_nil hne
  subst hq
  unfold get_player_stats
  rw [hsplit, statLoopAux_fail fetch p l2 l1 [] [] hok hfail]
  simp

/-- Witness for C6: the fetch of player 2 fails, so the batch over players
1, 2, 3 aborts after calling 1 and 2 only. -/
theorem get_player_stats_abort_witness :
    get_player_stats (fun pid => if pid = 2 then none else some [⟨pid, []⟩])
      [⟨1, "A B"⟩, ⟨2, "C D"⟩, ⟨3, "E F"⟩] = (none, [1, 2]) :=
  get_player_stats_abort _ _ [1] 2 [3] (by decide) (by decide) (by decide)

/-- C10: on an empty roster the collector never binds its accumulator and
the final merge fails with an unbound-variable error instead of returning
an empty joined table; a non-empty roster is a precondition. -/
theorem get_player_stats_empty_roster (fetch : Int → Option (List StatRow)) :
    get_player_stats fetch [] = (none, []) := rfl

/-! ## Table construction and identifier coercion -/

/-- Column coercion preserves the number of rows. -/
lemma coerceRows_length (j : Nat) :
    ∀ rows rows1, coerceRows j rows = some rows1 → rows1.length = rows.length := by
  intro rows
  induction rows with
  | nil =>
    intro rows1 h
    simp only [coerceRows, Option.some.injEq] at h
    rw [← h]
  | cons r rest ih =>
    intro rows1 h
    unfold coerceRows at h
    simp only [Option.bind_eq_bind, Option.bind_eq_some, Option.pure_def,
      Option.some.injEq] at h
    obtain ⟨r1, -, rest1, hrest, hrows⟩ := h
    rw [← hrows]
    simp [ih rest1 hrest]

/-- A successful `astype(int)` keeps the column list and the row count. -/
lemma astype_int_shape (df : DataFrame) (col : String) (df1 : DataFrame)
    (h : astype_int df col = some df1) :
    df1.columns = df.columns ∧ df1.rows.length = df.rows.length := by
  unfold astype_int at h
  simp only [Option.bind_eq_bind, Option.bind_eq_some, Option.pure_def,
    Option.some.injEq] at h
  obtain ⟨j, -, rows1, hr, hdf⟩ := h
  rw [← hdf]
  exact ⟨rfl, coerceRows_length j df.rows rows1 hr⟩

/-- C7: whenever the Roster Fetcher and the Stat Fetcher build their
tables from a valid result-set response, the table has as many rows as the
`rowSet` and its column list is the declared `headers`. -/
theorem table_construction_shape
    (rssA rssB : List ResultSet) (rsA rsB : ResultSet) (dfA dfB : DataFrame)
    (hA : rssA.head? = some rsA) (hgA : get_players_df rssA = some dfA)
    (hB : rssB.get? 1 = some rsB)
    (hgB : get_player_career_reg_season_stats rssB = some dfB) :
    dfA.rows.length = rsA.rowSet.length ∧ dfA.columns = rsA.headers ∧
      dfB.rows.length = rsB.rowSet.length ∧ dfB.columns = rsB.headers := by
  unfold get_players_df at hgA
  rw [hA] at hgA
  simp only [Option.bind_eq_bind, Option.some_bind] at hgA
  obtain ⟨hcA, hrA⟩ := astype_int_shape _ _ _ hgA
  unfold get_player_career_reg_season_stats at hgB
  rw [hB] at hgB
  simp only [Option.bind_eq_bind, Option.some_bind] at hgB
  obtain ⟨hcB, hrB⟩ := astype_int_shape _ _ _ hgB
  exact ⟨hrA, hcA, hrB, hcB⟩

/-- Witness for C7 on concrete one-row responses for both endpoints. -/
theorem table_construction_shape_witness :
    (⟨["PERSON_ID", "TO_YEAR"], [[JVal.int 1, JVal.int 2018]]⟩ : DataFrame).rows.length =
        ([[JVal.int 1, JVal.str "2018"]] : List (List JVal)).length ∧
      (⟨["PERSON_ID", "TO_YEAR"], [[JVal.int 1, JVal.int 2018]]⟩ : DataFrame).columns =
        ["PERSON_ID", "TO_YEAR"] ∧
      (⟨["PLAYER_ID", "PTS"], [[JVal.int 5, JVal.int 10]]⟩ : DataFrame).rows.length =
        ([[JVal.str "5", JVal.int 10]] : List (List JVal)).length ∧
      (⟨["PLAYER_ID", "PTS"], [[JVal.int 5, JVal.int 10]]⟩ : DataFrame).columns =
        ["PLAYER_ID", "PTS"] :=
  table_construction_shape
    [⟨["PERSON_ID", "TO_YEAR"], [[JVal.int 1, JVal.str "2018"]]⟩]
    [⟨[], []⟩, ⟨["PLAYER_ID", "PTS"], [[JVal.str "5", JVal.int 10]]⟩]
    ⟨["PERSON_ID", "TO_YEAR"], [[JVal.int 1, JVal.str "2018"]]⟩
    ⟨["PLAYER_ID", "PTS"], [[JVal.str "5", JVal.int 10]]⟩
    ⟨["PERSON_ID", "TO_YEAR"], [[JVal.int 1, JVal.int 2018]]⟩
    ⟨["PLAYER_ID", "PTS"], [[JVal.int 5, JVal.int 10]]⟩
    (by decide) (by decide) (by decide) (by decide)

/-- The digit parser succeeds exactly on nonempty all-digit inputs. -/
lemma digitsToNat_isSome (cs : List Char) :
    (digitsToNat cs).isSome ↔ (cs ≠ [] ∧ cs.all Char.isDigit = true) := by
  unfold digitsToNat
  split
  · simp_all
  · simp_all

/-- The string-to-integer parser succeeds exactly on numeric strings. -/
lemma strToInt_isSome (s : String) : NumericStr s ↔ (strToInt s).isSome := by
  unfold NumericStr strToInt
  cases s.data with
  | nil => simp
  | cons c rest =>
    by_cases hminus : c = '-'
    · subst hminus
      simp [digitsToNat_isSome]
    · by_cases hplus : c = '+'
      · subst hplus
        simp [hminus, digitsToNat_isSome]
      · simp [hminus, hplus, digitsToNat_isSome]

/-- C8: the `PLAYER_ID` coercion of the Stat Fetcher maps an integer cell
to that integer and a numeric-string cell to an integer; it yields no
silent null on bad input: a non-numeric cell makes the coercion, and with
it the `astype(int)` step over the `PLAYER_ID` column, fail. -/
theorem player_id_coercion :
    (∀ n : Int, pyInt (JVal.int n) = some n) ∧
    (∀ s : String, NumericStr s ↔ (pyInt (JVal.str s)).isSome) ∧
    pyInt JVal.null = none ∧
    (∀ v : JVal,
      (astype_int (from_records [[v]] ["PLAYER_ID"]) "PLAYER_ID").isSome ↔
        (pyInt v).isSome) ∧
    (∀ s : String, ¬ NumericStr s → pyInt (JVal.str s) = none) := by
  refine ⟨fun n => rfl, fun s => strToInt_isSome s, rfl, ?_, ?_⟩
  · intro v
    cases hv : pyInt v with
    | none =>
      simp [astype_int, from_records, coerceRows, coerceRow, hv, List.findIdx?]
    | some n =>
      simp [astype_int, from_records, coerceRows, coerceRow, hv, List.findIdx?]
  · intro s hs
    have : ¬ (pyInt (JVal.str s)).isSome := fun h => hs ((strToInt_isSome s).mpr h)
    exact Option.not_isSome_iff_eq_none.mp this

/-- Witness for C8: a numeric string parses, a non-numeric one fails. -/
theorem player_id_coercion_witness :
    pyInt (JVal.str "abc") = none ∧ pyInt (JVal.str "203076") = some 203076 :=
  ⟨player_id_coercion.2.2.2.2 "abc" (by decide), by decide⟩

/-- Witness for C4 on a two-row roster split into two clusters. -/
theorem buildReport_partition_witness :
    ∃ d, buildReport 2 [⟨1, "A B"⟩, ⟨2, "C D"⟩] [0, 1] = some d ∧
      d.map Prod.fst = List.range 2 ∧
      (d.map fun e => e.2.length).sum = ([⟨1, "A B"⟩, ⟨2, "C D"⟩] : List Player).length :=
  buildReport_partition 2 [⟨1, "A B"⟩, ⟨2, "C D"⟩] [0, 1]
    (by decide) (by decide) (by decide)
